import Mathlib

/-!
# Verification of the rimag-assistant-platform core

A shallow embedding of the core components of the repository:

* the streaming aggregator of `app/services/ai_service.py`
  (`call_ai_recommendation_streaming`, `_parse_stream_response`),
* the WebSocket connection registry of `app/services/websocket_service.py`
  (`WebSocketManager.connect` / `disconnect` / `send_message`),
* the clinical-context resolver and request handler of
  `app/api/routes/websocket_manager.py` (`handle_ai_recommend_request`),
* the result cache of `app/services/ai_service.py` (`get_cached_recommendation`),
* the span tracker of `app/services/trace_service.py` (`finish_span`),
* the permission gate of `app/services/permission_service.py` (`is_client_allowed`).

Machine times are modelled as integers (seconds); the five-minute windows of the
source become the constant 300.
-/

namespace Rimag

/-! ## Python string trimming

`str.strip()` of Python removes leading and trailing whitespace
(space, tab, newline, carriage return, vertical tab, form feed). -/

def isPySpace (c : Char) : Bool :=
  c == ' ' || c == '\t' || c == '\n' || c == '\r' || c == '\x0b' || c == '\x0c'

def pyStrip (s : String) : String :=
  ⟨((s.data.dropWhile isPySpace).reverse.dropWhile isPySpace).reverse⟩

/-! ## Data model of one streamed recommendation

`AiRecommendationResult` mirrors the pydantic schema used by the service:
item name, accumulated reason text, accumulated cautions text and the 1-based
sequence number. -/

structure AiRecommendationResult where
  check_item_name : String
  reason : String
  cautions : String
  sequence : Nat
  deriving DecidableEq, Repr

/-- One decoded data frame of the upstream stream: the
`(check_item_name, reason, cautions)` triple extracted from a `data:` line. -/
structure Frame where
  check_item_name : String
  reason : String
  cautions : String
  deriving DecidableEq, Repr

/-- One entry of the accumulation dictionary `recommendations_dict`
(`{check_item_name: {"reason": ..., "cautions": ...}}`); the list order models
the insertion order of the Python dict. -/
structure ItemAcc where
  name : String
  reason : String
  cautions : String
  deriving DecidableEq, Repr

/-- The `+=` mutation on the entry whose name matches the frame
(`recommendations_dict[name]["reason"] += str(reason)` etc.); other entries
are untouched. -/
def updFrame (f : Frame) (a : ItemAcc) : ItemAcc :=
  if a.name == f.check_item_name then
    { a with reason := a.reason ++ f.reason, cautions := a.cautions ++ f.cautions }
  else a

/-- Applying one frame to `recommendations_dict`: an empty item name is
skipped; a fresh name is inserted with empty texts; then the reason and
cautions fragments are concatenated onto the matching entry. -/
def applyFrame (st : List ItemAcc) (f : Frame) : List ItemAcc :=
  if f.check_item_name = "" then st
  else
    let st1 := if st.any (fun a => a.name == f.check_item_name) then st
               else st ++ [{ name := f.check_item_name, reason := "", cautions := "" }]
    st1.map (updFrame f)

/-- Folding a whole sequence of frames into the accumulation dictionary. -/
def processFrames (st : List ItemAcc) : List Frame → List ItemAcc
  | [] => st
  | f :: fs => processFrames (applyFrame st f) fs

/-- `for i, (n, agg) in enumerate(recommendations_dict.items(), 1)`: the final
(or snapshot) list, with stripped texts and 1-based sequence numbers assigned
in dictionary insertion order. -/
def finalListAux (i : Nat) : List ItemAcc → List AiRecommendationResult
  | [] => []
  | a :: st =>
      { check_item_name := a.name, reason := pyStrip a.reason,
        cautions := pyStrip a.cautions, sequence := i } :: finalListAux (i + 1) st

def finalList (st : List ItemAcc) : List AiRecommendationResult :=
  finalListAux 1 st

/-- Dictionary lookup in the accumulation state. -/
def getEntry : List ItemAcc → String → Option (String × String)
  | [], _ => none
  | a :: st, n => if a.name = n then some (a.reason, a.cautions) else getEntry st n

/-- Concatenation of all reason fragments carried by frames for a given name. -/
def concatReason : List Frame → String → String
  | [], _ => ""
  | f :: fs, n =>
      if f.check_item_name == n then f.reason ++ concatReason fs n
      else concatReason fs n

/-- Concatenation of all cautions fragments carried by frames for a given name. -/
def concatCautions : List Frame → String → String
  | [], _ => ""
  | f :: fs, n =>
      if f.check_item_name == n then f.cautions ++ concatCautions fs n
      else concatCautions fs n

/-- The distinct non-empty item names of a frame sequence in first-seen order,
relative to a set of already-seen names. -/
def newNames (seen : List String) : List Frame → List String
  | [] => []
  | f :: fs =>
      if f.check_item_name = "" ∨ f.check_item_name ∈ seen then newNames seen fs
      else f.check_item_name :: newNames (seen ++ [f.check_item_name]) fs

/-- The distinct non-empty item names of a frame sequence in first-seen order. -/
def firstSeenNames (fs : List Frame) : List String :=
  newNames [] fs

/-! ## The streaming run of `call_ai_recommendation_streaming`

The upstream response is modelled at the level of decoded line events:
a `data:`/bare-JSON line either decodes to a payload triple (`frame`), carries
a truthy `finish` field (`finishSig`), or is skipped (blank line, JSON decode
failure, payload without the recognised fields). -/

inductive StreamEvent where
  | frame (f : Frame)
  | finishSig
  | skip
  deriving DecidableEq, Repr

/-- A message pushed to the requesting session during one aggregation run:
either an `ai_recommendation` snapshot (item list, `partial` flag, `finish`
flag) or an `error` notification identified by its error code. -/
inductive Msg where
  | aiRec (recs : List AiRecommendationResult) (isPart : Bool) (isFin : Bool)
  | errNote (code : String)
  deriving DecidableEq, Repr

/-- One element of the one-shot JSON fallback's candidate array: a decoded
candidate dict (an element that is not a dict, or lacks a usable
`check_item_name`, is modelled with `name = ""` and skipped). -/
structure Cand where
  name : String
  reason : String
  cautions : String
  deriving DecidableEq, Repr

/-- The decoded single JSON document of the non-SSE fallback branch: whether
`code` is a non-zero integer, and the candidate array found under `data`, a
nested sub-key, or a top-level `recommendations` field. -/
structure OneShotDoc where
  codeErr : Bool
  candidates : List Cand
  deriving DecidableEq, Repr

/-- One-shot assignment `recommendations_dict[name] = {...}`: replaces the
entry (keeping its dict position) instead of concatenating. -/
def applyCand (st : List ItemAcc) (c : Cand) : List ItemAcc :=
  if c.name = "" then st
  else if st.any (fun a => a.name == c.name) then
    st.map (fun a =>
      if a.name == c.name then { name := c.name, reason := c.reason, cautions := c.cautions }
      else a)
  else st ++ [{ name := c.name, reason := c.reason, cautions := c.cautions }]

/-- The upstream interaction of one streaming call, as the aggregator sees it:
a complete event stream, a one-shot JSON document (`none` when the body fails
to decode to a dict), an event stream aborted by a transport error after a
prefix of events, or an HTTP/connection error before any line is read. -/
inductive StreamInput where
  | sse (evs : List StreamEvent)
  | jsonBody (doc : Option OneShotDoc)
  | sseFail (evs : List StreamEvent)
  | httpError
  deriving DecidableEq, Repr

/-- One persisted `AiRecommendationLog` outcome (status and serialized items). -/
structure LogEntry where
  status : String
  items : List AiRecommendationResult
  deriving DecidableEq, Repr

/-- Observable outcome of one aggregation run: the ordered messages pushed to
the session, the recommendation logs persisted, and the value returned to the
caller (`Except.error` models the re-raised exception). -/
structure RunOutput where
  msgs : List Msg
  logs : List LogEntry
  result : Except Unit (List AiRecommendationResult)

/-- The per-line loop of the SSE branch: stops at a `finish` event, skips
undecodable lines and frames with an empty item name, and after every applied
frame pushes a partial snapshot (`partial=True, finish=False`) of all items
accumulated so far. Returns the final accumulation state and the pushed
messages in order. -/
def runSseLoop (st : List ItemAcc) : List StreamEvent → List ItemAcc × List Msg
  | [] => (st, [])
  | .finishSig :: _ => (st, [])
  | .skip :: evs => runSseLoop st evs
  | .frame f :: evs =>
      if f.check_item_name = "" then runSseLoop st evs
      else
        let st1 := applyFrame st f
        let res := runSseLoop st1 evs
        (res.1, .aiRec (finalList st1) true false :: res.2)

/-- `call_ai_recommendation_streaming`: the full run for each input shape.

* `sse`: consume the stream, push partials, then push the terminal snapshot
  (`partial=False, finish=True`), push `AI_STREAM_EMPTY` if the final list is
  empty, persist a success log and return the final list.
* `jsonBody`: one-shot extraction (pushing `AI_JSON_ERROR` when the document
  carries a non-zero code), then the same terminal sequence.
* `sseFail` / `httpError`: the `except` branch — push a terminal snapshot with
  an **empty** list, persist a failed log with an empty list, re-raise. -/
def runStreaming : StreamInput → RunOutput
  | .sse evs =>
      let r := runSseLoop [] evs
      let final := finalList r.1
      { msgs := r.2 ++ [.aiRec final false true]
          ++ (if final.isEmpty then [.errNote "AI_STREAM_EMPTY"] else []),
        logs := [{ status := "success", items := final }],
        result := .ok final }
  | .jsonBody doc =>
      let st := match doc with
        | none => []
        | some d => d.candidates.foldl applyCand []
      let errMsgs := match doc with
        | some d => if d.codeErr then [Msg.errNote "AI_JSON_ERROR"] else []
        | none => []
      let final := finalList st
      { msgs := errMsgs ++ [.aiRec final false true]
          ++ (if final.isEmpty then [.errNote "AI_STREAM_EMPTY"] else []),
        logs := [{ status := "success", items := final }],
        result := .ok final }
  | .sseFail evs =>
      let r := runSseLoop [] evs
      { msgs := r.2 ++ [.aiRec [] false true],
        logs := [{ status := "failed", items := [] }],
        result := .error () }
  | .httpError =>
      { msgs := [.aiRec [] false true],
        logs := [{ status := "failed", items := [] }],
        result := .error () }

/-- Whether a message is an `ai_recommendation` message. -/
def Msg.isAiRec : Msg → Bool
  | .aiRec _ _ _ => true
  | .errNote _ => false

/-- Whether a message is a terminal `ai_recommendation` snapshot (`finish=True`). -/
def Msg.isTerminal : Msg → Bool
  | .aiRec _ _ true => true
  | _ => false

/-! ## The WebSocket connection registry (`WebSocketManager`)

Transports are identified by numbers; `active` models the insertion-ordered
dict `active_connections`, and `closed` records every transport on which
`websocket.close()` has been called. -/

namespace WebSocketManager

structure State where
  active : List (String × Nat)
  closed : List Nat
  deriving DecidableEq, Repr

/-- `active_connections[client_id]` lookup. -/
def lookupConn (st : State) (cid : String) : Option Nat :=
  (st.active.find? (fun p => p.1 == cid)).map (·.2)

/-- `WebSocketManager.disconnect`: if the client is registered, close its
transport and drop the bookkeeping entry; otherwise do nothing. -/
def disconnect (st : State) (cid : String) : State :=
  match lookupConn st cid with
  | none => st
  | some t => { active := st.active.filter (fun p => p.1 != cid), closed := t :: st.closed }

/-- `WebSocketManager.connect`: if a session already exists for the client
identifier, disconnect it first (reason `new_connection_replace`), then
install the new transport. -/
def connect (st : State) (cid : String) (t : Nat) : State :=
  let st1 := if (lookupConn st cid).isSome then disconnect st cid else st
  { st1 with active := st1.active ++ [(cid, t)] }

/-- `WebSocketManager.send_message`: an unregistered client yields `False`
with no state change; a failing transport write causes a soft disconnect
(`send_message_failed`) and `False`. -/
def sendMessage (st : State) (cid : String) (writeOk : Bool) : Bool × State :=
  match lookupConn st cid with
  | none => (false, st)
  | some _ => if writeOk then (true, st) else (false, disconnect st cid)

end WebSocketManager

/-! ## The context resolver and request handler
(`handle_ai_recommend_request` of `app/api/routes/websocket_manager.py`) -/

/-- One stored HIS push record (`HisPushLog`), with the fields the resolver
queries; `created_at` in seconds. -/
structure HisPushLog where
  id : Nat
  pat_no : String
  adm_id : String
  user_code : String
  created_at : Int
  deriving DecidableEq, Repr

/-- The five-minute window (`timedelta(minutes=5)`), in seconds. -/
def fiveMinutes : Int := 300

/-- `order_by(created_at.desc()).limit(1)` then first: a record of maximal
`created_at` (the earliest listed among ties). -/
def mostRecent : List HisPushLog → Option HisPushLog
  | [] => none
  | r :: rs => some (rs.foldl (fun b s => if s.created_at > b.created_at then s else b) r)

/-- Tier 1 query: exact match on `(pat_no, user_code)`. -/
def tier1 (logs : List HisPushLog) (p d : String) : List HisPushLog :=
  logs.filter (fun r => r.pat_no == p && r.user_code == d)

/-- Tier 2 query: match on `(pat_no, adm_id)`. -/
def tier2 (logs : List HisPushLog) (p v : String) : List HisPushLog :=
  logs.filter (fun r => r.pat_no == p && r.adm_id == v)

/-- Tier 3 query: match on `user_code` alone, restricted to records created
within the last five minutes. -/
def tier3 (logs : List HisPushLog) (now : Int) (d : String) : List HisPushLog :=
  logs.filter (fun r => r.user_code == d && decide (now - fiveMinutes ≤ r.created_at))

/-- The three-tier cascading match: exact `(pat_no, user_code)` match, then
`(pat_no, adm_id)` (only attempted for a truthy visit id), then `user_code`
alone restricted to the last five minutes; each tier takes the most recent
match. -/
def resolveHisLog (logs : List HisPushLog) (now : Int) (p v d : String) : Option HisPushLog :=
  match mostRecent (tier1 logs p d) with
  | some r => some r
  | none =>
    match (if v ≠ "" then mostRecent (tier2 logs p v) else none) with
    | some r => some r
    | none => mostRecent (tier3 logs now d)

/-- One client-to-role binding row (`ClientRoleBinding`). -/
structure ClientRoleBinding where
  client_id : String
  role_id : String
  deriving DecidableEq, Repr

/-- One role ACL row (`RoleServiceAcl`). -/
structure RoleServiceAcl where
  role_id : String
  allow : Bool
  deriving DecidableEq, Repr

/-- `is_client_allowed`: with no role bindings allow by default, otherwise
allow exactly when some bound role has an `allow=True` ACL rule. -/
def is_client_allowed (bindings : List ClientRoleBinding) (acls : List RoleServiceAcl)
    (cid : String) : Bool :=
  let bs := (bindings.filter (fun b => b.client_id == cid)).map ClientRoleBinding.role_id
  if bs.isEmpty then true
  else acls.any (fun a => bs.contains a.role_id && a.allow)

/-- The inbound `ai_recommend_request` payload: `data.get(...)` for the four
identifiers (`none` models an absent key). -/
structure WsRequest where
  requestId : Option String
  patientId : Option String
  visitId : Option String
  doctorId : Option String
  deriving DecidableEq, Repr

/-- Python truthiness of an optional string (`None` and `""` are falsy). -/
def pyTruthy : Option String → Bool
  | none => false
  | some s => s != ""

/-- Outcome of `handle_ai_recommend_request` up to the streaming call:
`REQ_001` (incomplete request), `REQ_404` (no HIS record found), `AUTH_403`
(permission denied), or proceeding into the upstream streaming call with the
resolved record. -/
inductive ReqOutcome where
  | errParams
  | errNotFound
  | errAuth
  | proceed (log : HisPushLog)
  deriving DecidableEq, Repr

/-- `handle_ai_recommend_request`: validate the four identifiers, resolve the
HIS record through the cascade, consult the permission gate, then invoke the
streaming call. -/
def handle_ai_recommend_request (clientId : String) (req : WsRequest)
    (logs : List HisPushLog) (bindings : List ClientRoleBinding)
    (acls : List RoleServiceAcl) (now : Int) : ReqOutcome :=
  if !(pyTruthy req.requestId && pyTruthy req.patientId
        && pyTruthy req.visitId && pyTruthy req.doctorId) then
    .errParams
  else
    match resolveHisLog logs now (req.patientId.getD "") (req.visitId.getD "")
            (req.doctorId.getD "") with
    | none => .errNotFound
    | some hisLog =>
        if is_client_allowed bindings acls clientId then .proceed hisLog else .errAuth

/-! ## The result cache (`get_cached_recommendation`) -/

/-- One persisted `AiRecommendationLog` row, with the fields the cache reads.
`recommendations` holds the decoded item list (the column always stores
`json.dumps` of a list, a non-empty — hence truthy — string). -/
structure AiRecommendationLog where
  pat_no : String
  adm_id : String
  status : String
  created_at : Int
  recommendations : List AiRecommendationResult
  deriving DecidableEq, Repr

/-- The cache query predicate: same patient and visit, successful, created
within the last five minutes (`created_at >= now - timedelta(minutes=5)`). -/
def cacheHit (now : Int) (p v : String) (l : AiRecommendationLog) : Bool :=
  l.pat_no == p && l.adm_id == v && l.status == "success"
    && decide (now - fiveMinutes ≤ l.created_at)

/-- `get_cached_recommendation`: the filtered query is read with
`scalar_one_or_none()`, which yields the row only when exactly one row
matches; zero rows yield `None`, and several rows raise
`MultipleResultsFound`, caught by the enclosing handler which returns `None`. -/
def get_cached_recommendation (logs : List AiRecommendationLog) (now : Int)
    (p v : String) : Option (List AiRecommendationResult) :=
  match logs.filter (cacheHit now p v) with
  | [l] => some l.recommendations
  | _ => none

/-! ## The span tracker (`finish_span` of `app/services/trace_service.py`) -/

/-- One `SpanRecord` row with the fields `finish_span` touches. -/
structure SpanRecord where
  span_id : String
  start_time : Int
  end_time : Option Int
  duration_ms : Int
  status : String
  response_data : Option String
  error_message : Option String
  deriving DecidableEq, Repr

/-- The row mutation of `finish_span`: set the end time to the current time,
recompute the duration from the unchanged start time, overwrite the status;
`response_data` is set when a response is passed (`is not None`), and
`error_message` only when the passed message is truthy. -/
def finishSpanUpdate (now : Int) (status : String) (response : Option String)
    (error_message : Option String) (r : SpanRecord) : SpanRecord :=
  { r with
    end_time := some now,
    duration_ms := now - r.start_time,
    status := status,
    response_data := match response with
      | some x => some x
      | none => r.response_data,
    error_message := match error_message with
      | some e => if e != "" then some e else r.error_message
      | none => r.error_message }

/-- `finish_span`: look the span up with `scalar_one_or_none()` (exactly one
matching row required; zero rows log and return, several raise and are caught,
leaving the store unchanged), then apply the mutation and flush. -/
def finish_span (db : List SpanRecord) (sid : String) (now : Int) (status : String)
    (response : Option String) (error_message : Option String) : List SpanRecord :=
  match db.filter (fun r => r.span_id == sid) with
  | [_] => db.map (fun r =>
      if r.span_id == sid then finishSpanUpdate now status response error_message r else r)
  | _ => db

/-- Lookup of a span row by identifier. -/
def findSpan (db : List SpanRecord) (sid : String) : Option SpanRecord :=
  db.find? (fun r => r.span_id == sid)

/-! ## Lemmas on the frame aggregation -/

/-- The names held by the accumulation dictionary, in insertion order. -/
def stNames (st : List ItemAcc) : List String := st.map ItemAcc.name

lemma updFrame_name (f : Frame) (a : ItemAcc) : (updFrame f a).name = a.name := by
  unfold updFrame
  split <;> rfl

lemma updFrame_of_ne (f : Frame) (a : ItemAcc) (h : a.name ≠ f.check_item_name) :
    updFrame f a = a := by
  unfold updFrame
  rw [if_neg (by simpa using h)]

lemma getEntry_cons (a : ItemAcc) (st : List ItemAcc) (n : String) :
    getEntry (a :: st) n =
      if a.name = n then some (a.reason, a.cautions) else getEntry st n := rfl

lemma getEntry_map_upd_ne (st : List ItemAcc) (f : Frame) (n : String)
    (hn : n ≠ f.check_item_name) :
    getEntry (st.map (updFrame f)) n = getEntry st n := by
  induction st with
  | nil => rfl
  | cons a st ih =>
    rw [List.map_cons, getEntry_cons, getEntry_cons, updFrame_name]
    by_cases h : a.name = n
    · rw [if_pos h, if_pos h, updFrame_of_ne f a (h.symm ▸ hn)]
    · rw [if_neg h, if_neg h, ih]

lemma getEntry_append_single_ne (st : List ItemAcc) (x : ItemAcc) (n : String)
    (hn : n ≠ x.name) :
    getEntry (st ++ [x]) n = getEntry st n := by
  induction st with
  | nil =>
    show getEntry [x] n = none
    rw [getEntry_cons, if_neg (fun h => hn h.symm)]
    rfl
  | cons a st ih =>
    rw [List.cons_append, getEntry_cons, getEntry_cons, ih]

lemma getEntry_map_upd_eq (st : List ItemAcc) (f : Frame) (r c : String)
    (h : getEntry st f.check_item_name = some (r, c)) :
    getEntry (st.map (updFrame f)) f.check_item_name
      = some (r ++ f.reason, c ++ f.cautions) := by
  induction st with
  | nil => exact absurd h (by simp [getEntry])
  | cons a st ih =>
    rw [getEntry_cons] at h
    rw [List.map_cons, getEntry_cons, updFrame_name]
    by_cases ha : a.name = f.check_item_name
    · rw [if_pos ha] at h
      have hr : a.reason = r := congrArg Prod.fst (Option.some.inj h)
      have hc : a.cautions = c := congrArg Prod.snd (Option.some.inj h)
      have hupd : updFrame f a
          = { a with reason := a.reason ++ f.reason, cautions := a.cautions ++ f.cautions } := by
        unfold updFrame
        rw [if_pos (by simpa using ha)]
      rw [if_pos ha, hupd]
      show some (a.reason ++ f.reason, a.cautions ++ f.cautions)
        = some (r ++ f.reason, c ++ f.cautions)
      rw [hr, hc]
    · rw [if_neg ha] at h
      rw [if_neg ha, ih h]

lemma getEntry_append_created (st : List ItemAcc) (x : ItemAcc)
    (h : getEntry st x.name = none) :
    getEntry (st ++ [x]) x.name = some (x.reason, x.cautions) := by
  induction st with
  | nil =>
    show getEntry [x] x.name = some (x.reason, x.cautions)
    rw [getEntry_cons, if_pos rfl]
  | cons a st ih =>
    rw [getEntry_cons] at h
    by_cases ha : a.name = x.name
    · rw [if_pos ha] at h; exact absurd h (by simp)
    · rw [if_neg ha] at h
      rw [List.cons_append, getEntry_cons, if_neg ha, ih h]

lemma any_name_eq_isSome (st : List ItemAcc) (n : String) :
    st.any (fun a => a.name == n) = (getEntry st n).isSome := by
  induction st with
  | nil => rfl
  | cons a st ih =>
    by_cases h : a.name = n
    · simp [getEntry, h]
    · simp [getEntry, h, ih]

lemma getEntry_applyFrame_ne (st : List ItemAcc) (f : Frame) (n : String)
    (hn : n ≠ f.check_item_name) :
    getEntry (applyFrame st f) n = getEntry st n := by
  unfold applyFrame
  by_cases h0 : f.check_item_name = ""
  · simp [h0]
  · simp only [h0, if_false]
    by_cases h1 : st.any (fun a => a.name == f.check_item_name)
    · simp only [h1, if_true]
      exact getEntry_map_upd_ne st f n hn
    · simp only [h1, Bool.false_eq_true, if_false]
      rw [getEntry_map_upd_ne _ f n hn, getEntry_append_single_ne st _ n hn]

lemma getEntry_applyFrame_eq (st : List ItemAcc) (f : Frame)
    (hf : f.check_item_name ≠ "") :
    getEntry (applyFrame st f) f.check_item_name =
      some (match getEntry st f.check_item_name with
            | some (r, c) => (r ++ f.reason, c ++ f.cautions)
            | none => (f.reason, f.cautions)) := by
  unfold applyFrame
  simp only [hf, if_false]
  by_cases h1 : st.any (fun a => a.name == f.check_item_name)
  · rw [any_name_eq_isSome] at h1
    obtain ⟨⟨r, c⟩, hrc⟩ := Option.isSome_iff_exists.mp h1
    rw [any_name_eq_isSome, h1]
    simp only [if_true, hrc]
    exact getEntry_map_upd_eq st f r c hrc
  · rw [any_name_eq_isSome] at h1
    have hnone : getEntry st f.check_item_name = none := by
      cases h : getEntry st f.check_item_name with
      | none => rfl
      | some v => rw [h] at h1; simp at h1
    rw [any_name_eq_isSome, hnone]
    simp only [Option.isSome_none, Bool.false_eq_true, if_false]
    have hcreated : getEntry (st ++ [{ name := f.check_item_name, reason := "", cautions := "" }])
        f.check_item_name = some ("", "") :=
      getEntry_append_created st _ hnone
    rw [getEntry_map_upd_eq _ f "" "" hcreated]
    simp [String.empty_append]

lemma stNames_map_upd (st : List ItemAcc) (f : Frame) :
    stNames (st.map (updFrame f)) = stNames st := by
  induction st with
  | nil => rfl
  | cons a st ih =>
    simp only [stNames, List.map_cons] at *
    rw [updFrame_name, ih]

lemma any_name_eq_mem (st : List ItemAcc) (n : String) :
    st.any (fun a => a.name == n) = (n ∈ stNames st : Bool) := by
  induction st with
  | nil => rfl
  | cons a st ih =>
    by_cases h : a.name = n
    · simp [stNames, h]
    · simp [stNames, h, Ne.symm h, ih]

lemma stNames_applyFrame (st : List ItemAcc) (f : Frame) :
    stNames (applyFrame st f) =
      if f.check_item_name = "" ∨ f.check_item_name ∈ stNames st then stNames st
      else stNames st ++ [f.check_item_name] := by
  unfold applyFrame
  by_cases h0 : f.check_item_name = ""
  · simp [h0]
  · rw [if_neg h0]
    by_cases h1 : f.check_item_name ∈ stNames st
    · rw [if_pos (Or.inr h1)]
      have hany : st.any (fun a => a.name == f.check_item_name) = true := by
        rw [any_name_eq_mem]; exact decide_eq_true h1
      simp only [hany, if_true]
      exact stNames_map_upd st f
    · rw [if_neg (fun hor => Or.elim hor h0 h1)]
      have hany : st.any (fun a => a.name == f.check_item_name) = false := by
        rw [any_name_eq_mem]; exact decide_eq_false h1
      simp only [hany, Bool.false_eq_true, if_false]
      rw [stNames_map_upd (st ++ [_]) f]
      simp [stNames]

lemma stNames_processFrames (fs : List Frame) :
    ∀ st : List ItemAcc,
      stNames (processFrames st fs) = stNames st ++ newNames (stNames st) fs := by
  induction fs with
  | nil => intro st; simp [processFrames, newNames]
  | cons f fs ih =>
    intro st
    rw [processFrames, ih, stNames_applyFrame]
    by_cases h : f.check_item_name = "" ∨ f.check_item_name ∈ stNames st
    · rw [if_pos h]
      conv_rhs => rw [newNames]
      rw [if_pos h]
    · rw [if_neg h]
      conv_rhs => rw [newNames]
      rw [if_neg h]
      simp

lemma newNames_spec (fs : List Frame) :
    ∀ seen : List String,
      (newNames seen fs).Nodup ∧ ∀ x ∈ newNames seen fs, x ∉ seen ∧ x ≠ "" := by
  induction fs with
  | nil => intro seen; simp [newNames]
  | cons f fs ih =>
    intro seen
    by_cases h : f.check_item_name = "" ∨ f.check_item_name ∈ seen
    · rw [newNames, if_pos h]
      exact ih seen
    · push_neg at h
      obtain ⟨h1, h2⟩ := h
      obtain ⟨ihn, ihm⟩ := ih (seen ++ [f.check_item_name])
      rw [newNames, if_neg (by simp [h1, h2])]
      refine ⟨List.nodup_cons.mpr ⟨fun hmem => ?_, ihn⟩, ?_⟩
      · exact (ihm _ hmem).1 (by simp)
      · intro x hx
        rcases List.mem_cons.mp hx with rfl | hx'
        · exact ⟨h2, h1⟩
        · obtain ⟨hns, hne⟩ := ihm x hx'
          exact ⟨fun hxs => hns (by simp [hxs]), hne⟩

lemma concatReason_cons_eq (f : Frame) (fs : List Frame) :
    concatReason (f :: fs) f.check_item_name
      = f.reason ++ concatReason fs f.check_item_name := by
  simp only [concatReason, beq_self_eq_true, if_true]

lemma concatCautions_cons_eq (f : Frame) (fs : List Frame) :
    concatCautions (f :: fs) f.check_item_name
      = f.cautions ++ concatCautions fs f.check_item_name := by
  simp only [concatCautions, beq_self_eq_true, if_true]

lemma concatReason_cons_ne (f : Frame) (fs : List Frame) (n : String)
    (h : f.check_item_name ≠ n) :
    concatReason (f :: fs) n = concatReason fs n := by
  simp only [concatReason]
  rw [if_neg (by simpa using h)]

lemma concatCautions_cons_ne (f : Frame) (fs : List Frame) (n : String)
    (h : f.check_item_name ≠ n) :
    concatCautions (f :: fs) n = concatCautions fs n := by
  simp only [concatCautions]
  rw [if_neg (by simpa using h)]

/-- An entry already present in the dictionary accumulates exactly the
fragments carried by the remaining frames for its name. -/
lemma getEntry_processFrames_some (fs : List Frame) :
    ∀ (st : List ItemAcc) (n : String) (r c : String), n ≠ "" →
      getEntry st n = some (r, c) →
      getEntry (processFrames st fs) n
        = some (r ++ concatReason fs n, c ++ concatCautions fs n) := by
  induction fs with
  | nil =>
    intro st n r c _ h
    simp [processFrames, h, concatReason, concatCautions, String.append_empty]
  | cons f fs ih =>
    intro st n r c hn h
    rw [processFrames]
    by_cases hfn : n = f.check_item_name
    · have hf : f.check_item_name ≠ "" := fun he => hn (hfn.trans he)
      have happ : getEntry (applyFrame st f) n = some (r ++ f.reason, c ++ f.cautions) := by
        rw [hfn, getEntry_applyFrame_eq st f hf, ← hfn, h]
      rw [ih _ n _ _ hn happ, hfn, concatReason_cons_eq, concatCautions_cons_eq,
        String.append_assoc, String.append_assoc]
    · have happ : getEntry (applyFrame st f) n = some (r, c) := by
        rw [getEntry_applyFrame_ne st f n hfn, h]
      rw [ih _ n _ _ hn happ,
        concatReason_cons_ne f fs n (fun he => hfn he.symm),
        concatCautions_cons_ne f fs n (fun he => hfn he.symm)]

/-- An entry absent from the dictionary ends up holding exactly the
concatenation of the fragments for its name — when some frame carries the
name at all. -/
lemma getEntry_processFrames_none (fs : List Frame) :
    ∀ (st : List ItemAcc) (n : String), n ≠ "" →
      getEntry st n = none →
      getEntry (processFrames st fs) n
        = if fs.any (fun f => f.check_item_name == n)
          then some (concatReason fs n, concatCautions fs n)
          else none := by
  induction fs with
  | nil =>
    intro st n _ h
    simp [processFrames, h]
  | cons f fs ih =>
    intro st n hn h
    rw [processFrames]
    by_cases hfn : n = f.check_item_name
    · have hf : f.check_item_name ≠ "" := fun he => hn (hfn.trans he)
      have happ : getEntry (applyFrame st f) n = some (f.reason, f.cautions) := by
        rw [hfn, getEntry_applyFrame_eq st f hf, ← hfn, h]
      rw [getEntry_processFrames_some fs _ n _ _ hn happ]
      have hany : ((f :: fs).any fun g => g.check_item_name == n) = true := by
        simp [List.any_cons, hfn]
      rw [hany, if_pos rfl, hfn, concatReason_cons_eq, concatCautions_cons_eq]
    · have happ : getEntry (applyFrame st f) n = none := by
        rw [getEntry_applyFrame_ne st f n hfn, h]
      rw [ih _ n hn happ,
        concatReason_cons_ne f fs n (fun he => hfn he.symm),
        concatCautions_cons_ne f fs n (fun he => hfn he.symm)]
      have hb : (f.check_item_name == n) = false := by
        simp
        exact fun he => hfn he.symm
      simp [List.any_cons, hb]

lemma finalListAux_names (st : List ItemAcc) :
    ∀ i : Nat, (finalListAux i st).map AiRecommendationResult.check_item_name = stNames st := by
  induction st with
  | nil => intro i; rfl
  | cons a st ih => intro i; simp [finalListAux, stNames, ih (i + 1)]
  -- the head contributes `a.name`, the tail is handled by the inductive step

lemma finalListAux_length (st : List ItemAcc) :
    ∀ i : Nat, (finalListAux i st).length = st.length := by
  induction st with
  | nil => intro i; rfl
  | cons a st ih => intro i; simp [finalListAux, ih (i + 1)]

lemma finalListAux_seq (st : List ItemAcc) :
    ∀ i : Nat, (finalListAux i st).map AiRecommendationResult.sequence
      = List.range' i st.length := by
  induction st with
  | nil => intro i; rfl
  | cons a st ih => intro i; simp [finalListAux, List.range', ih (i + 1)]

lemma mem_finalListAux (st : List ItemAcc) :
    ∀ (i : Nat) (r : AiRecommendationResult), r ∈ finalListAux i st →
      ∃ a ∈ st, r.check_item_name = a.name ∧ r.reason = pyStrip a.reason
        ∧ r.cautions = pyStrip a.cautions := by
  induction st with
  | nil => intro i r hr; simp [finalListAux] at hr
  | cons a st ih =>
    intro i r hr
    rcases List.mem_cons.mp hr with rfl | hr'
    · exact ⟨a, by simp, rfl, rfl, rfl⟩
    · obtain ⟨b, hb, h⟩ := ih (i + 1) r hr'
      exact ⟨b, by simp [hb], h⟩

lemma getEntry_of_mem_nodup (st : List ItemAcc) (hnd : (stNames st).Nodup) :
    ∀ a ∈ st, getEntry st a.name = some (a.reason, a.cautions) := by
  induction st with
  | nil => intro a ha; simp at ha
  | cons b st ih =>
    obtain ⟨hb, hnd'⟩ := List.nodup_cons.mp hnd
    intro a ha
    rcases List.mem_cons.mp ha with rfl | ha'
    · simp [getEntry]
    · have hne : b.name ≠ a.name := by
        intro h
        exact hb (h ▸ List.mem_map.mpr ⟨a, ha', rfl⟩)
      rw [getEntry_cons, if_neg hne]
      exact ih hnd' a ha'

/-- C1: for every sequence of `(itemName, reasonFragment, cautionFragment)`
frames fed to the streaming aggregator, the final item list has no duplicate
names, lists the items in first-seen order, assigns the 1-based sequence
numbers `1, 2, …` in that order, and gives every item the concatenation of
all fragments seen for its name, trimmed of surrounding whitespace. -/
theorem C1_streaming_aggregation (fs : List Frame) :
    ((finalList (processFrames [] fs)).map AiRecommendationResult.check_item_name).Nodup
    ∧ (finalList (processFrames [] fs)).map AiRecommendationResult.check_item_name
        = firstSeenNames fs
    ∧ (finalList (processFrames [] fs)).map AiRecommendationResult.sequence
        = List.range' 1 (finalList (processFrames [] fs)).length
    ∧ ∀ r ∈ finalList (processFrames [] fs),
        r.reason = pyStrip (concatReason fs r.check_item_name)
        ∧ r.cautions = pyStrip (concatCautions fs r.check_item_name) := by
  have hnames : stNames (processFrames [] fs) = firstSeenNames fs := by
    have h := stNames_processFrames fs []
    simpa [stNames, firstSeenNames] using h
  have hnd : (stNames (processFrames [] fs)).Nodup := by
    rw [hnames]
    exact (newNames_spec fs []).1
  refine ⟨?_, ?_, ?_, ?_⟩
  · simp only [finalList, finalListAux_names]
    exact hnd
  · simp only [finalList, finalListAux_names]
    exact hnames
  · simp only [finalList, finalListAux_seq, finalListAux_length]
  · intro r hr
    obtain ⟨a, ha, hname, hre, hca⟩ := mem_finalListAux _ 1 r hr
    have hmem : a.name ∈ stNames (processFrames [] fs) := List.mem_map.mpr ⟨a, ha, rfl⟩
    have hane : a.name ≠ "" := by
      rw [hnames] at hmem
      exact ((newNames_spec fs []).2 _ hmem).2
    have hB := getEntry_processFrames_none fs [] a.name hane rfl
    have hsome : getEntry (processFrames [] fs) a.name = some (a.reason, a.cautions) :=
      getEntry_of_mem_nodup _ hnd a ha
    rw [hsome] at hB
    by_cases hany : (fs.any fun f => f.check_item_name == a.name) = true
    · rw [if_pos hany] at hB
      have hr' : a.reason = concatReason fs a.name := congrArg Prod.fst (Option.some.inj hB)
      have hc' : a.cautions = concatCautions fs a.name := congrArg Prod.snd (Option.some.inj hB)
      rw [hname, hre, hca, hr', hc']
      exact ⟨rfl, rfl⟩
    · rw [if_neg hany] at hB
      exact absurd hB (by simp)

/-! ## Lemmas on the full streaming run -/

lemma runSseLoop_no_terminal (evs : List StreamEvent) :
    ∀ (st : List ItemAcc) (m : Msg), m ∈ (runSseLoop st evs).2 →
      Msg.isTerminal m = false := by
  induction evs with
  | nil => intro st m hm; simp [runSseLoop] at hm
  | cons e evs ih =>
    intro st m hm
    cases e with
    | finishSig => simp [runSseLoop] at hm
    | skip =>
      simp only [runSseLoop] at hm
      exact ih st m hm
    | frame f =>
      by_cases hf : f.check_item_name = ""
      · simp only [runSseLoop, if_pos hf] at hm
        exact ih st m hm
      · simp only [runSseLoop, if_neg hf] at hm
        rcases List.mem_cons.mp hm with rfl | hm'
        · rfl
        · exact ih _ m hm'

lemma terminal_seq_spec (pmsgs : List Msg)
    (hp : ∀ m ∈ pmsgs, Msg.isTerminal m = false)
    (final : List AiRecommendationResult) (extra : List Msg)
    (hextra : ∀ m ∈ extra, Msg.isTerminal m = false ∧ Msg.isAiRec m = false) :
    ((pmsgs ++ [Msg.aiRec final false true] ++ extra).countP Msg.isTerminal = 1)
    ∧ (((pmsgs ++ [Msg.aiRec final false true] ++ extra).filter Msg.isAiRec).getLast?).map
        Msg.isTerminal = some true := by
  constructor
  · rw [List.countP_append, List.countP_append]
    have h1 : pmsgs.countP Msg.isTerminal = 0 := by
      rw [List.countP_eq_zero]
      intro m hm
      simp [hp m hm]
    have h2 : extra.countP Msg.isTerminal = 0 := by
      rw [List.countP_eq_zero]
      intro m hm
      simp [(hextra m hm).1]
    rw [h1, h2]
    simp [List.countP_cons, Msg.isTerminal]
  · have hfe : extra.filter Msg.isAiRec = [] := by
      rw [List.filter_eq_nil_iff]
      intro m hm
      simp [(hextra m hm).2]
    have hft : List.filter Msg.isAiRec [Msg.aiRec final false true]
        = [Msg.aiRec final false true] := by
      simp [Msg.isAiRec]
    rw [List.filter_append, List.filter_append, hfe, List.append_nil, hft,
      List.getLast?_concat]
    rfl

lemma extra_not_airec (b : Bool) (s : String) :
    ∀ m ∈ (if b then [Msg.errNote s] else []),
      Msg.isTerminal m = false ∧ Msg.isAiRec m = false := by
  cases b with
  | false => simp
  | true =>
    intro m hm
    simp only [if_true, List.mem_singleton] at hm
    subst hm
    exact ⟨rfl, rfl⟩

/-- C2: every aggregation run — natural stream end, explicit finish signal,
one-shot JSON extraction, or upstream failure — pushes exactly one terminal
snapshot (`finish=True`), and the last `ai_recommendation` message of the run
is that terminal snapshot. -/
theorem C2_exactly_one_terminal_snapshot (inp : StreamInput) :
    ((runStreaming inp).msgs.countP Msg.isTerminal = 1)
    ∧ (((runStreaming inp).msgs.filter Msg.isAiRec).getLast?).map Msg.isTerminal
        = some true := by
  cases inp with
  | sse evs =>
    simp only [runStreaming]
    exact terminal_seq_spec _ (runSseLoop_no_terminal evs []) _ _ (extra_not_airec _ _)
  | jsonBody doc =>
    cases doc with
    | none =>
      simp only [runStreaming]
      exact terminal_seq_spec [] (by simp) _ _ (extra_not_airec _ _)
    | some d =>
      simp only [runStreaming]
      refine terminal_seq_spec _ ?_ _ _ (extra_not_airec _ _)
      intro m hm
      by_cases hc : d.codeErr
      · rw [if_pos hc] at hm
        rcases List.mem_singleton.mp hm with rfl
        rfl
      · rw [if_neg hc] at hm
        simp at hm
  | sseFail evs =>
    simp only [runStreaming]
    have h := terminal_seq_spec ((runSseLoop [] evs).2) (runSseLoop_no_terminal evs [])
      [] [] (by simp)
    simpa using h
  | httpError =>
    have h := terminal_seq_spec [] (by simp) [] [] (by simp)
    simpa [runStreaming] using h

/-- The two-item prefix of a stream aborted by an upstream failure. -/
def failFrames : List StreamEvent :=
  [.frame { check_item_name := "CT", reason := "r1", cautions := "" },
   .frame { check_item_name := "MRI", reason := "r2", cautions := "" }]

/-- Counterexample to C3 as stated: when the upstream call fails after two
items were accumulated, the terminal snapshot does **not** carry the two
accumulated items — it carries the empty list (and so does the persisted
failure log). -/
theorem C3_counterexample :
    (finalList (runSseLoop [] failFrames).1).length = 2
    ∧ ((runStreaming (.sseFail failFrames)).msgs.filter Msg.isTerminal)
        = [.aiRec [] false true]
    ∧ (runStreaming (.sseFail failFrames)).logs
        = [{ status := "failed", items := [] }]
    ∧ finalList (runSseLoop [] failFrames).1 ≠ [] := by
  refine ⟨rfl, by decide, rfl, by decide⟩

/-- C3 (amended): when the upstream streaming call fails mid-stream, the
aggregator still pushes a terminal snapshot with `finish=True` — but carrying
an empty item list rather than the items accumulated so far — persists a
failure RecommendationLog (also with an empty item list), and the error then
propagates to the caller. -/
theorem C3_failure_terminal_snapshot (evs : List StreamEvent) :
    (runStreaming (.sseFail evs)).msgs.getLast? = some (.aiRec [] false true)
    ∧ (runStreaming (.sseFail evs)).logs = [{ status := "failed", items := [] }]
    ∧ (runStreaming (.sseFail evs)).result = .error () := by
  refine ⟨?_, rfl, rfl⟩
  simp only [runStreaming]
  exact List.getLast?_concat _

/-- The frame sequence of the spec's worked scenario:
`CT "sus"`, `CT "pect"`, `MRI "confirm"`. -/
def demoFrames : List Frame :=
  [{ check_item_name := "CT", reason := "sus", cautions := "" },
   { check_item_name := "CT", reason := "pect", cautions := "" },
   { check_item_name := "MRI", reason := "confirm", cautions := "" }]

/-! ## Lemmas on the connection registry -/

lemma connRegistry_filter_facts (st : WebSocketManager.State) (cid : String) :
    ∀ x ∈ st.active.filter (fun p => p.1 != cid), x.1 ≠ cid := by
  intro x hx
  have hb := (List.mem_filter.mp hx).2
  exact bne_iff_ne.mp hb

lemma connRegistry_cid_not_mem (st : WebSocketManager.State) (cid : String) :
    cid ∉ (st.active.filter (fun p => p.1 != cid)).map Prod.fst := by
  intro hmem
  obtain ⟨x, hx, hx1⟩ := List.mem_map.mp hmem
  exact connRegistry_filter_facts st cid x hx hx1

/-- C4: registering a new transport for a client identifier that already has a
live session leaves exactly one live session for that identifier, closes the
prior session's transport, and preserves the at-most-one-session-per-identifier
invariant at every intermediate state (the intermediate disconnect leaves zero
sessions for the identifier and the key list duplicate-free). -/
theorem C4_register_replaces_session (st : WebSocketManager.State) (cid : String)
    (t0 tNew : Nat)
    (hnd : (st.active.map Prod.fst).Nodup)
    (h0 : WebSocketManager.lookupConn st cid = some t0) :
    WebSocketManager.lookupConn (WebSocketManager.connect st cid tNew) cid = some tNew
    ∧ ((WebSocketManager.connect st cid tNew).active.map Prod.fst).count cid = 1
    ∧ t0 ∈ (WebSocketManager.connect st cid tNew).closed
    ∧ ((WebSocketManager.connect st cid tNew).active.map Prod.fst).Nodup
    ∧ ((WebSocketManager.disconnect st cid).active.map Prod.fst).count cid = 0
    ∧ ((WebSocketManager.disconnect st cid).active.map Prod.fst).Nodup := by
  have hdis : WebSocketManager.disconnect st cid =
      { active := st.active.filter (fun p => p.1 != cid), closed := t0 :: st.closed } := by
    unfold WebSocketManager.disconnect
    rw [h0]
  have hisSome : (WebSocketManager.lookupConn st cid).isSome := by rw [h0]; rfl
  have hcon : WebSocketManager.connect st cid tNew =
      { active := st.active.filter (fun p => p.1 != cid) ++ [(cid, tNew)],
        closed := t0 :: st.closed } := by
    unfold WebSocketManager.connect
    rw [if_pos hisSome, hdis]
  have hnd_kf : ((st.active.filter (fun p => p.1 != cid)).map Prod.fst).Nodup :=
    hnd.sublist ((List.filter_sublist _).map Prod.fst)
  have hcount0 : ((st.active.filter (fun p => p.1 != cid)).map Prod.fst).count cid = 0 :=
    List.count_eq_zero.mpr (connRegistry_cid_not_mem st cid)
  refine ⟨?_, ?_, ?_, ?_, ?_, ?_⟩
  · rw [hcon]
    unfold WebSocketManager.lookupConn
    rw [List.find?_append]
    have hnone : (st.active.filter (fun p => p.1 != cid)).find? (fun p => p.1 == cid) = none := by
      rw [List.find?_eq_none]
      intro x hx
      simpa using connRegistry_filter_facts st cid x hx
    rw [hnone, Option.none_or]
    simp
  · rw [hcon]
    simp only [List.map_append, List.count_append, hcount0, List.map_cons, List.map_nil]
    simp
  · rw [hcon]
    exact List.mem_cons_self _ _
  · rw [hcon]
    simp only [List.map_append, List.map_cons, List.map_nil]
    rw [List.nodup_append]
    refine ⟨hnd_kf, List.nodup_singleton _, ?_⟩
    intro a ha hb
    rw [List.mem_singleton] at hb
    exact connRegistry_cid_not_mem st cid (hb ▸ ha)
  · rw [hdis]
    exact hcount0
  · rw [hdis]
    exact hnd_kf

/-- Witness for C4: replacing the only session of `client_d_u` (transport 7)
with transport 9 yields transport 9 registered and transport 7 closed. -/
theorem C4_register_replaces_session_witness :
    ((([(("client_d_u" : String), (7 : Nat))] : List (String × Nat)).map Prod.fst).Nodup
      ∧ WebSocketManager.lookupConn ⟨[("client_d_u", 7)], []⟩ "client_d_u" = some 7)
    ∧ WebSocketManager.lookupConn
        (WebSocketManager.connect ⟨[("client_d_u", 7)], []⟩ "client_d_u" 9) "client_d_u"
        = some 9
    ∧ 7 ∈ (WebSocketManager.connect ⟨[("client_d_u", 7)], []⟩ "client_d_u" 9).closed :=
  ⟨⟨by decide, rfl⟩,
    (C4_register_replaces_session ⟨[("client_d_u", 7)], []⟩ "client_d_u" 7 9
      (by decide) rfl).1,
    (C4_register_replaces_session ⟨[("client_d_u", 7)], []⟩ "client_d_u" 7 9
      (by decide) rfl).2.2.1⟩

/-- C10: sending to a client identifier with no registered session returns
`False` and leaves the registry — and every other session — untouched. -/
theorem C10_send_unknown_client (st : WebSocketManager.State) (cid : String)
    (writeOk : Bool) (h : WebSocketManager.lookupConn st cid = none) :
    WebSocketManager.sendMessage st cid writeOk = (false, st) := by
  unfold WebSocketManager.sendMessage
  rw [h]

/-- Witness for C10: sending to the unconnected `client_x_y` while
`client_a_b` is connected fails softly and changes nothing. -/
theorem C10_send_unknown_client_witness :
    WebSocketManager.lookupConn ⟨[("client_a_b", 3)], []⟩ "client_x_y" = none
    ∧ WebSocketManager.sendMessage ⟨[("client_a_b", 3)], []⟩ "client_x_y" true
        = (false, ⟨[("client_a_b", 3)], []⟩) :=
  ⟨rfl, C10_send_unknown_client ⟨[("client_a_b", 3)], []⟩ "client_x_y" true rfl⟩

/-- Witness for C1 at the spec's scenario input: the final names are
`[CT, MRI]` and the fragment-concatenation property holds there. -/
theorem C1_streaming_aggregation_witness :
    (finalList (processFrames [] demoFrames)).map AiRecommendationResult.check_item_name
        = ["CT", "MRI"]
    ∧ (finalList (processFrames [] demoFrames)).map AiRecommendationResult.reason
        = ["suspect", "confirm"]
    ∧ ∀ r ∈ finalList (processFrames [] demoFrames),
        r.reason = pyStrip (concatReason demoFrames r.check_item_name)
        ∧ r.cautions = pyStrip (concatCautions demoFrames r.check_item_name) :=
  ⟨rfl, rfl, (C1_streaming_aggregation demoFrames).2.2.2⟩

/-! ## Lemmas on the context resolver -/

lemma foldl_recency (rs : List HisPushLog) :
    ∀ b : HisPushLog,
      ((rs.foldl (fun x s => if s.created_at > x.created_at then s else x) b) = b
        ∨ (rs.foldl (fun x s => if s.created_at > x.created_at then s else x) b) ∈ rs)
      ∧ b.created_at
          ≤ (rs.foldl (fun x s => if s.created_at > x.created_at then s else x) b).created_at
      ∧ ∀ s ∈ rs, s.created_at
          ≤ (rs.foldl (fun x s => if s.created_at > x.created_at then s else x) b).created_at := by
  induction rs with
  | nil => intro b; exact ⟨Or.inl rfl, le_refl _, by simp⟩
  | cons r rs ih =>
    intro b
    rw [List.foldl_cons]
    by_cases h : r.created_at > b.created_at
    · rw [if_pos h]
      obtain ⟨hm, hb, hall⟩ := ih r
      refine ⟨?_, le_trans (le_of_lt h) hb, ?_⟩
      · rcases hm with h' | h'
        · exact Or.inr (by rw [h']; exact List.mem_cons_self _ _)
        · exact Or.inr (List.mem_cons_of_mem _ h')
      · intro s hs
        rcases List.mem_cons.mp hs with rfl | hs'
        · exact hb
        · exact hall s hs'
    · rw [if_neg h]
      obtain ⟨hm, hb, hall⟩ := ih b
      push_neg at h
      refine ⟨?_, hb, ?_⟩
      · rcases hm with h' | h'
        · exact Or.inl h'
        · exact Or.inr (List.mem_cons_of_mem _ h')
      · intro s hs
        rcases List.mem_cons.mp hs with rfl | hs'
        · exact le_trans h hb
        · exact hall s hs'

lemma mostRecent_spec (rs : List HisPushLog) (h : rs ≠ []) :
    ∃ m, mostRecent rs = some m ∧ m ∈ rs ∧ ∀ s ∈ rs, s.created_at ≤ m.created_at := by
  cases rs with
  | nil => exact absurd rfl h
  | cons r rs =>
    obtain ⟨hm, hb, hall⟩ := foldl_recency rs r
    refine ⟨_, rfl, ?_, ?_⟩
    · rcases hm with h' | h'
      · rw [h']; exact List.mem_cons_self _ _
      · exact List.mem_cons_of_mem _ h'
    · intro s hs
      rcases List.mem_cons.mp hs with rfl | hs'
      · exact hb
      · exact hall s hs'

lemma mostRecent_eq_none_iff (rs : List HisPushLog) : mostRecent rs = none ↔ rs = [] := by
  cases rs <;> simp [mostRecent]

/-- C5: the context resolver tries the three tiers in order — exact
`(patientId, operatorId)`, then `(patientId, visitId)`, then `operatorId`
alone within the last five minutes — each tier yielding a most-recent match,
and when no tier matches, the request handler surfaces `REQ_404` instead of
proceeding. -/
theorem C5_context_resolution_cascade (logs : List HisPushLog) (now : Int) (p v d : String)
    (hv : v ≠ "") :
    (tier1 logs p d ≠ [] →
      ∃ r, resolveHisLog logs now p v d = some r ∧ r ∈ tier1 logs p d
        ∧ ∀ s ∈ tier1 logs p d, s.created_at ≤ r.created_at)
    ∧ (tier1 logs p d = [] → tier2 logs p v ≠ [] →
      ∃ r, resolveHisLog logs now p v d = some r ∧ r ∈ tier2 logs p v
        ∧ ∀ s ∈ tier2 logs p v, s.created_at ≤ r.created_at)
    ∧ (tier1 logs p d = [] → tier2 logs p v = [] → tier3 logs now d ≠ [] →
      ∃ r, resolveHisLog logs now p v d = some r ∧ r ∈ tier3 logs now d
        ∧ (now - fiveMinutes ≤ r.created_at)
        ∧ ∀ s ∈ tier3 logs now d, s.created_at ≤ r.created_at)
    ∧ (tier1 logs p d = [] → tier2 logs p v = [] → tier3 logs now d = [] →
      resolveHisLog logs now p v d = none)
    ∧ (∀ (cid rq : String) (bindings : List ClientRoleBinding) (acls : List RoleServiceAcl),
        rq ≠ "" → p ≠ "" → d ≠ "" →
        resolveHisLog logs now p v d = none →
        handle_ai_recommend_request cid ⟨some rq, some p, some v, some d⟩ logs bindings acls now
          = .errNotFound) := by
  refine ⟨?_, ?_, ?_, ?_, ?_⟩
  · intro h1
    obtain ⟨m, hm, hmem, hmax⟩ := mostRecent_spec _ h1
    refine ⟨m, ?_, hmem, hmax⟩
    unfold resolveHisLog
    rw [hm]
  · intro h1 h2
    have hn1 : mostRecent (tier1 logs p d) = none := (mostRecent_eq_none_iff _).mpr h1
    obtain ⟨m, hm, hmem, hmax⟩ := mostRecent_spec _ h2
    refine ⟨m, ?_, hmem, hmax⟩
    unfold resolveHisLog
    rw [hn1, if_pos hv, hm]
  · intro h1 h2 h3
    have hn1 : mostRecent (tier1 logs p d) = none := (mostRecent_eq_none_iff _).mpr h1
    have hn2 : mostRecent (tier2 logs p v) = none := (mostRecent_eq_none_iff _).mpr h2
    obtain ⟨m, hm, hmem, hmax⟩ := mostRecent_spec _ h3
    have hwin : now - fiveMinutes ≤ m.created_at := by
      have hb := (List.mem_filter.mp hmem).2
      have := (Bool.and_eq_true ..).mp hb
      exact of_decide_eq_true this.2
    refine ⟨m, ?_, hmem, hwin, hmax⟩
    unfold resolveHisLog
    rw [hn1, if_pos hv, hn2, hm]
  · intro h1 h2 h3
    have hn1 : mostRecent (tier1 logs p d) = none := (mostRecent_eq_none_iff _).mpr h1
    have hn2 : mostRecent (tier2 logs p v) = none := (mostRecent_eq_none_iff _).mpr h2
    have hn3 : mostRecent (tier3 logs now d) = none := (mostRecent_eq_none_iff _).mpr h3
    unfold resolveHisLog
    rw [hn1, if_pos hv, hn2, hn3]
  · intro cid rq bindings acls hrq hp hd hres
    have hcond : (pyTruthy (some rq) && pyTruthy (some p)
        && pyTruthy (some v) && pyTruthy (some d)) = true := by
      simp [pyTruthy, hrq, hp, hv, hd]
    unfold handle_ai_recommend_request
    rw [hcond]
    simp only [Bool.not_true, Bool.false_eq_true, if_false, Option.getD_some]
    rw [hres]

/-- The single stored HIS record used by the C5 witness. -/
def demoHisLogs : List HisPushLog :=
  [{ id := 1, pat_no := "P1", adm_id := "V1", user_code := "D1", created_at := 100 }]

/-- Witness for C5: with one record matching tier 1 exactly, resolution
returns it; and with an empty store every tier misses, so the handler answers
`REQ_404`. -/
theorem C5_context_resolution_cascade_witness :
    (∃ r, resolveHisLog demoHisLogs 350 "P1" "V1" "D1" = some r
      ∧ r ∈ tier1 demoHisLogs "P1" "D1"
      ∧ ∀ s ∈ tier1 demoHisLogs "P1" "D1", s.created_at ≤ r.created_at)
    ∧ handle_ai_recommend_request "c1" ⟨some "rq", some "P1", some "V1", some "D1"⟩
        [] [] [] 350 = .errNotFound :=
  ⟨(C5_context_resolution_cascade demoHisLogs 350 "P1" "V1" "D1" (by decide)).1 (by decide),
   (C5_context_resolution_cascade [] 350 "P1" "V1" "D1" (by decide)).2.2.2.2
     "c1" "rq" [] [] (by decide) (by decide) (by decide)
     (((C5_context_resolution_cascade [] 350 "P1" "V1" "D1" (by decide)).2.2.2.1)
       rfl rfl rfl)⟩

/-- C9: an `ai_recommend_request` missing any of `requestId`, `patientId`,
`visitId`, `doctorId` is answered immediately with `REQ_001`; the outcome is
`errParams` for every store state, so no context lookup and no upstream call
happen. -/
theorem C9_incomplete_request_rejected (cid : String) (req : WsRequest)
    (logs : List HisPushLog) (bindings : List ClientRoleBinding)
    (acls : List RoleServiceAcl) (now : Int)
    (h : req.requestId = none ∨ req.patientId = none
      ∨ req.visitId = none ∨ req.doctorId = none) :
    handle_ai_recommend_request cid req logs bindings acls now = .errParams := by
  have hcond : (pyTruthy req.requestId && pyTruthy req.patientId
      && pyTruthy req.visitId && pyTruthy req.doctorId) = false := by
    rcases h with h | h | h | h <;> simp [h, pyTruthy]
  unfold handle_ai_recommend_request
  rw [hcond]
  rfl

/-- Witness for C9 at the spec's scenario: a request missing `visitId` yields
`REQ_001` on an arbitrary concrete store. -/
theorem C9_incomplete_request_rejected_witness :
    (WsRequest.mk (some "r1") (some "P1") none (some "D1")).visitId = none
    ∧ handle_ai_recommend_request "c1" ⟨some "r1", some "P1", none, some "D1"⟩
        demoHisLogs [] [] 0 = .errParams :=
  ⟨rfl, C9_incomplete_request_rejected "c1" ⟨some "r1", some "P1", none, some "D1"⟩
    demoHisLogs [] [] 0 (Or.inr (Or.inr (Or.inl rfl)))⟩

/-! ## The permission gate -/

/-- C8: a client with no role bindings is allowed by default; a client with at
least one binding is allowed exactly when some bound role carries an
`allow=True` rule. -/
theorem C8_permission_gate (bindings : List ClientRoleBinding) (acls : List RoleServiceAcl)
    (cid : String) :
    ((bindings.filter (fun b => b.client_id == cid)).map ClientRoleBinding.role_id = [] →
      is_client_allowed bindings acls cid = true)
    ∧ ((bindings.filter (fun b => b.client_id == cid)).map ClientRoleBinding.role_id ≠ [] →
      (is_client_allowed bindings acls cid = true ↔
        ∃ a ∈ acls,
          a.role_id ∈ (bindings.filter (fun b => b.client_id == cid)).map
            ClientRoleBinding.role_id
          ∧ a.allow = true)) := by
  constructor
  · intro h
    unfold is_client_allowed
    rw [h]
    rfl
  · intro h
    simp only [is_client_allowed]
    have hne : ((bindings.filter (fun b => b.client_id == cid)).map
        ClientRoleBinding.role_id).isEmpty = false := by
      cases hl : (bindings.filter (fun b => b.client_id == cid)).map ClientRoleBinding.role_id with
      | nil => exact absurd hl h
      | cons x xs => rfl
    rw [hne]
    simp only [Bool.false_eq_true, if_false, List.any_eq_true, Bool.and_eq_true,
      List.elem_iff]

/-- Witness for C8: a client whose only bound role has an allow rule is
allowed, and a client with no bindings is allowed by default. -/
theorem C8_permission_gate_witness :
    is_client_allowed [{ client_id := "c1", role_id := "role1" }]
      [{ role_id := "role1", allow := true }] "c1" = true
    ∧ is_client_allowed [] [] "c2" = true :=
  ⟨((C8_permission_gate [{ client_id := "c1", role_id := "role1" }]
      [{ role_id := "role1", allow := true }] "c1").2 (by decide)).mpr
      ⟨{ role_id := "role1", allow := true }, by decide, by decide, rfl⟩,
   (C8_permission_gate [] [] "c2").1 rfl⟩

/-! ## The result cache -/

/-- A one-item recommendation list for concrete cache rows. -/
def recCT : AiRecommendationResult :=
  { check_item_name := "CT", reason := "r", cautions := "c", sequence := 1 }

/-- A cache store whose only successful row is exactly five minutes old at
query time 1000. -/
def cacheDb : List AiRecommendationLog :=
  [{ pat_no := "P1", adm_id := "V1", status := "success", created_at := 700,
     recommendations := [recCT] }]

/-- Counterexample to C6 as stated: a successful log created exactly five
minutes before the query — i.e. **at** expiry, not strictly within the window
— is still returned, because the source filters with
`created_at >= now - timedelta(minutes=5)` (inclusive). -/
theorem C6_cache_counterexample :
    (get_cached_recommendation cacheDb 1000 "P1" "V1").isSome = true
    ∧ ∀ l ∈ cacheDb, ¬(1000 - l.created_at < fiveMinutes) := by
  refine ⟨rfl, ?_⟩
  intro l hl
  rcases List.mem_singleton.mp hl with rfl
  decide

/-- C6 (amended): `GetCached(p, v)` returns an item list iff **exactly one**
successful RecommendationLog for `(p, v)` was created within the last five
minutes **inclusive** (`created_at ≥ now − 5 min`); with zero or several
matching rows (the query is read with `scalar_one_or_none`), or strictly
after expiry, it returns nothing, and any returned list is the matching
row's item list. -/
theorem C6_cache_window (logs : List AiRecommendationLog) (now : Int) (p v : String) :
    ((get_cached_recommendation logs now p v).isSome = true
      ↔ logs.countP (cacheHit now p v) = 1)
    ∧ (∀ recs, get_cached_recommendation logs now p v = some recs →
        ∃ l ∈ logs, l.pat_no = p ∧ l.adm_id = v ∧ l.status = "success"
          ∧ now - l.created_at ≤ fiveMinutes ∧ recs = l.recommendations) := by
  have hcount : logs.countP (cacheHit now p v) = (logs.filter (cacheHit now p v)).length :=
    List.countP_eq_length_filter _ _
  constructor
  · rw [hcount]
    unfold get_cached_recommendation
    cases hf : logs.filter (cacheHit now p v) with
    | nil => simp
    | cons l ls =>
      cases ls with
      | nil => simp
      | cons l2 ls2 => simp
  · intro recs hr
    unfold get_cached_recommendation at hr
    cases hf : logs.filter (cacheHit now p v) with
    | nil => rw [hf] at hr; simp at hr
    | cons l ls =>
      cases ls with
      | cons l2 ls2 => rw [hf] at hr; simp at hr
      | nil =>
        rw [hf] at hr
        have hrecs : recs = l.recommendations := (Option.some.inj hr).symm
        have hl : l ∈ logs.filter (cacheHit now p v) := by
          rw [hf]; exact List.mem_singleton_self _
        have hmem := (List.mem_filter.mp hl).1
        have hhit := (List.mem_filter.mp hl).2
        unfold cacheHit at hhit
        simp only [Bool.and_eq_true, beq_iff_eq, decide_eq_true_eq] at hhit
        obtain ⟨⟨⟨h1, h2⟩, h3⟩, h4⟩ := hhit
        exact ⟨l, hmem, h1, h2, h3, by omega, hrecs⟩

/-- Witness for C6 (amended): the concrete store with exactly one matching
row yields a hit, matching the count criterion. -/
theorem C6_cache_window_witness :
    (get_cached_recommendation cacheDb 1000 "P1" "V1").isSome = true
    ∧ cacheDb.countP (cacheHit 1000 "P1" "V1") = 1
    ∧ ∃ l ∈ cacheDb, l.pat_no = "P1" ∧ l.adm_id = "V1" ∧ l.status = "success"
        ∧ (1000 : Int) - l.created_at ≤ fiveMinutes ∧ [recCT] = l.recommendations :=
  ⟨((C6_cache_window cacheDb 1000 "P1" "V1").1).mpr (by decide),
   by decide,
   (C6_cache_window cacheDb 1000 "P1" "V1").2 [recCT] rfl⟩

/-! ## The span tracker -/

lemma finish_span_upd_preserves_id (now : Int) (status : String) (response : Option String)
    (errm : Option String) (r : SpanRecord) :
    (finishSpanUpdate now status response errm r).span_id = r.span_id := rfl

lemma span_filter_map_upd (db : List SpanRecord) (sid : String)
    (g : SpanRecord → SpanRecord) (hg : ∀ r, (g r).span_id = r.span_id) :
    (db.map (fun r => if r.span_id == sid then g r else r)).filter
        (fun r => r.span_id == sid)
      = (db.filter (fun r => r.span_id == sid)).map g := by
  induction db with
  | nil => rfl
  | cons a db ih =>
    by_cases h : a.span_id = sid
    · have hb : (a.span_id == sid) = true := by simp [h]
      have hgb : ((g a).span_id == sid) = true := by simp [hg a, h]
      simp only [List.map_cons, hb, if_true, List.filter_cons, hgb, ih]
    · have hb : (a.span_id == sid) = false := by simp [h]
      simp only [List.map_cons, hb, Bool.false_eq_true, if_false, List.filter_cons, ih]

lemma findSpan_eq_head_filter (db : List SpanRecord) (sid : String) :
    findSpan db sid = (db.filter (fun r => r.span_id == sid)).head? := by
  induction db with
  | nil => rfl
  | cons a db ih =>
    by_cases h : a.span_id = sid
    · have hb : (a.span_id == sid) = true := by simp [h]
      simp [findSpan, List.find?_cons, hb, List.filter_cons]
    · have hb : (a.span_id == sid) = false := by simp [h]
      simp only [findSpan, List.filter_cons, hb, Bool.false_eq_true, if_false]
      rw [List.find?_cons_of_neg _ (by simp [hb])]
      exact ih

lemma finish_span_char (db : List SpanRecord) (sid : String) (r : SpanRecord)
    (h : db.filter (fun x => x.span_id == sid) = [r]) (now : Int) (status : String)
    (response : Option String) (errm : Option String) :
    ((finish_span db sid now status response errm).filter (fun x => x.span_id == sid)
        = [finishSpanUpdate now status response errm r])
    ∧ findSpan (finish_span db sid now status response errm) sid
        = some (finishSpanUpdate now status response errm r) := by
  have hfs : finish_span db sid now status response errm
      = db.map (fun x =>
          if x.span_id == sid then finishSpanUpdate now status response errm x else x) := by
    unfold finish_span
    rw [h]
  have hfilter : (finish_span db sid now status response errm).filter
      (fun x => x.span_id == sid) = [finishSpanUpdate now status response errm r] := by
    rw [hfs, span_filter_map_upd db sid _ (finish_span_upd_preserves_id now status response errm),
      h]
    rfl
  exact ⟨hfilter, by rw [findSpan_eq_head_filter, hfilter]; rfl⟩

/-- The running span used in the C7 counterexample. -/
def span0 : SpanRecord :=
  { span_id := "s1", start_time := 0, end_time := none, duration_ms := 0,
    status := "RUNNING", response_data := none, error_message := none }

/-- Counterexample to C7 as stated: `finish_span` has no idempotent guard —
finishing span `s1` at time 10 and again at time 20 moves its recorded end
time from 10 to 20 (and rewrites duration and status), so the second call is
not a no-op. -/
theorem C7_finish_span_counterexample :
    (findSpan (finish_span [span0] "s1" 10 "SUCCESS" none none) "s1").map
        SpanRecord.end_time = some (some 10)
    ∧ (findSpan (finish_span (finish_span [span0] "s1" 10 "SUCCESS" none none)
        "s1" 20 "FAILED" none none) "s1").map SpanRecord.end_time = some (some 20)
    ∧ finish_span (finish_span [span0] "s1" 10 "SUCCESS" none none) "s1" 20 "FAILED" none none
      ≠ finish_span [span0] "s1" 10 "SUCCESS" none none := by
  refine ⟨rfl, rfl, by decide⟩

/-- C7 (amended): `finish_span` is last-write-wins, not idempotent — every
call on the unique span row sets the end time to the call time, recomputes the
duration from the unchanged start time, and overwrites the status, so a second
call replaces the first call's end time, duration, and status. -/
theorem C7_finish_span_overwrites (db : List SpanRecord) (sid : String) (r : SpanRecord)
    (h : db.filter (fun x => x.span_id == sid) = [r]) (t₁ t₂ : Int) (s₁ s₂ : String) :
    findSpan (finish_span db sid t₁ s₁ none none) sid
      = some { r with end_time := some t₁, duration_ms := t₁ - r.start_time, status := s₁ }
    ∧ findSpan (finish_span (finish_span db sid t₁ s₁ none none) sid t₂ s₂ none none) sid
      = some { r with end_time := some t₂, duration_ms := t₂ - r.start_time, status := s₂ } := by
  have h1 := finish_span_char db sid r h t₁ s₁ none none
  have h2 := finish_span_char _ sid (finishSpanUpdate t₁ s₁ none none r) h1.1 t₂ s₂ none none
  exact ⟨h1.2, h2.2⟩

/-- Witness for C7 (amended): finishing `s1` at time 10 then at time 20 leaves
end time 20, duration 20, status FAILED. -/
theorem C7_finish_span_overwrites_witness :
    ([span0].filter (fun x => x.span_id == "s1") = [span0])
    ∧ findSpan (finish_span (finish_span [span0] "s1" 10 "SUCCESS" none none)
        "s1" 20 "FAILED" none none) "s1"
      = some { span0 with
          end_time := some 20
          duration_ms := 20 - span0.start_time
          status := "FAILED" } :=
  ⟨by decide,
   (C7_finish_span_overwrites [span0] "s1" span0 (by decide) 10 20 "SUCCESS" "FAILED").2⟩

end Rimag
